import Mathlib

set_option maxRecDepth 16384

/-!
A verification development for the cathode-nes emulator: a shallow embedding
of the MOS 6502 CPU core (mos_6502 crate) and of the NES glue (nes crate:
PPU, CPU bus multiplexer, cartridge, controller ports, iNES ROM loader),
with theorems checking the natural-language specification against the code.

Machine integers are modelled as `Nat` with the type-level truncations of
`u8`/`u16` written as explicit `% 256` / `% 65536`.  Code paths that panic in
Rust (out-of-range indexing, explicit `panic`/`unreachable` arms) are
modelled with `Option`, `none` standing for the panic.
-/

namespace Mos6502

/-- Bus16 instantiated at FlatMemory (mos_6502/src/memory.rs): a full 64 KiB
byte memory without mirroring or mapping.  Reads on FlatMemory are pure. -/
abbrev Mem := Nat → Nat

/-- FlatMemory::read_byte (same as peek_byte): `self.bytes[address as usize]`. -/
def Mem.readByte (m : Mem) (address : Nat) : Nat :=
  m (address % 65536) % 256

/-- FlatMemory::write_byte. -/
def Mem.writeByte (m : Mem) (address value : Nat) : Mem :=
  fun a => if a = address % 65536 then value % 256 else m a

/-- Bus16::read_word: low byte at `address`, high byte at `address.wrapping_add(1)`,
result `(upper << 8) | lower`. -/
def Mem.readWord (m : Mem) (address : Nat) : Nat :=
  (m.readByte (address + 1)) <<< 8 ||| m.readByte address

/-- The CPU register file and latches (mos_6502/src/cpu.rs, struct CPU). -/
structure CPU where
  a : Nat
  x : Nat
  y : Nat
  pc : Nat
  s : Nat
  carry : Bool
  zero : Bool
  irq_disable : Bool
  decimal_mode : Bool
  overflow : Bool
  negative : Bool
  nmi : Bool
  last_nmi : Bool
  irq : Bool
  total_cycles : Nat
  jammed : Bool

/-- CPU::new(). -/
def CPU.new : CPU :=
  { a := 0, x := 0, y := 0, pc := 0, s := 0,
    carry := false, zero := false, irq_disable := true, decimal_mode := false,
    overflow := false, negative := false,
    nmi := false, last_nmi := false, irq := false,
    total_cycles := 0, jammed := false }

/-- CPU::encode_p: the status byte as pushed, bit 5 always 1, bit 4 the
supplied break-command flag. -/
def CPU.encodeP (c : CPU) (brkCommand : Bool) : Nat :=
  (if c.negative then 1 else 0) <<< 7 |||
  (if c.overflow then 1 else 0) <<< 6 |||
  1 <<< 5 |||
  (if brkCommand then 1 else 0) <<< 4 |||
  (if c.decimal_mode then 1 else 0) <<< 3 |||
  (if c.irq_disable then 1 else 0) <<< 2 |||
  (if c.zero then 1 else 0) <<< 1 |||
  (if c.carry then 1 else 0)

/-- CPU::status_register(): encode_p(false). -/
def CPU.statusRegister (c : CPU) : Nat :=
  c.encodeP false

/-- CPU::set_nz_flags. -/
def CPU.setNzFlags (c : CPU) (value : Nat) : CPU :=
  { c with zero := value == 0, negative := value &&& (1 <<< 7) != 0 }

/-- CPU::adder: the two chained `overflowing_add`s and the signed-overflow
formula `((sum ^ rhs) & (sum ^ lhs) & (1 << 7)) != 0`. -/
def CPU.adder (rhs lhs : Nat) (carry : Bool) : Nat × Bool × Bool :=
  let sum1 := (rhs + lhs) % 256
  let carry1 := decide (255 < rhs + lhs)
  let sum := (sum1 + (if carry then 1 else 0)) % 256
  let carry2 := decide (255 < sum1 + (if carry then 1 else 0))
  (sum, carry1 || carry2, ((sum ^^^ rhs) &&& (sum ^^^ lhs) &&& (1 <<< 7)) != 0)

/-- CPU::adc: add memory to accumulator with carry. -/
def CPU.adc (c : CPU) (m : Mem) (address length cycles : Nat) : CPU :=
  let value := m.readByte address
  let r := CPU.adder c.a value c.carry
  let c := { c with a := r.1, carry := r.2.1, overflow := r.2.2 }
  let c := c.setNzFlags c.a
  { c with pc := c.pc + length, total_cycles := c.total_cycles + cycles }

/-- CPU::crosses_page_boundary. -/
def CPU.crossesPageBoundary (a b : Nat) : Bool :=
  a &&& 0xFF00 != b &&& 0xFF00

/-- CPU::read_word_with_page_wrapping: the high byte is read from
`address & 0xFF00 | address.wrapping_add(1) & 0x00FF`. -/
def CPU.readWordWithPageWrapping (m : Mem) (address : Nat) : Nat :=
  let lowByte := m.readByte address
  let highByte := m.readByte ((address &&& 0xFF00) ||| ((address + 1) % 65536 &&& 0x00FF))
  highByte <<< 8 ||| lowByte

/-- CPU::resolve_address_absolute_indirect (used only by JMP, opcode 0x6C). -/
def CPU.resolveAddressAbsoluteIndirect (c : CPU) (m : Mem) : Nat :=
  let indirectAddress := m.readWord (c.pc + 1)
  CPU.readWordWithPageWrapping m indirectAddress

/-- CPU::jmp. -/
def CPU.jmp (c : CPU) (jmpAddress cycles : Nat) : CPU :=
  { c with pc := jmpAddress, total_cycles := c.total_cycles + cycles }

/-- The opcode 0x6C dispatch arm of CPU::execute_instruction:
resolve the absolute-indirect address, then `jmp(effective_address, 5)`. -/
def CPU.executeJmpIndirect (c : CPU) (m : Mem) : CPU :=
  let effectiveAddress := c.resolveAddressAbsoluteIndirect m
  c.jmp effectiveAddress 5

/-- CPU::resolve_address_relative: called after PC has been advanced by the
branch length; the operand byte sits at `pc - 1` and is sign-extended
(`as i8 as i16`), then `pc.wrapping_add_signed(offset)`. -/
def CPU.resolveAddressRelative (c : CPU) (m : Mem) : Nat :=
  let offset := m.readByte (c.pc - 1)
  (((c.pc : Int) + (if offset < 128 then (offset : Int) else (offset : Int) - 256)) % 65536).toNat

/-- CPU::relative_conditional_branch. -/
def CPU.relativeConditionalBranch (c : CPU) (m : Mem) (shouldBranch : Bool) : CPU :=
  if shouldBranch then
    let targetAddress := c.resolveAddressRelative m
    let c :=
      if CPU.crossesPageBoundary c.pc targetAddress then
        { c with total_cycles := c.total_cycles + 2 }
      else
        { c with total_cycles := c.total_cycles + 1 }
    { c with pc := targetAddress }
  else c

/-- CPU::beq (opcode 0xF0 dispatches beq(bus, 2, 2)). -/
def CPU.beq (c : CPU) (m : Mem) (length cycles : Nat) : CPU :=
  let c := { c with pc := c.pc + length }
  let c := c.relativeConditionalBranch m c.zero
  { c with total_cycles := c.total_cycles + cycles }

/-- CPU::bne (opcode 0xD0). -/
def CPU.bne (c : CPU) (m : Mem) (length cycles : Nat) : CPU :=
  let c := { c with pc := c.pc + length }
  let c := c.relativeConditionalBranch m (!c.zero)
  { c with total_cycles := c.total_cycles + cycles }

/-- CPU::bcc (opcode 0x90). -/
def CPU.bcc (c : CPU) (m : Mem) (length cycles : Nat) : CPU :=
  let c := { c with pc := c.pc + length }
  let c := c.relativeConditionalBranch m (!c.carry)
  { c with total_cycles := c.total_cycles + cycles }

/-- CPU::bcs (opcode 0xB0). -/
def CPU.bcs (c : CPU) (m : Mem) (length cycles : Nat) : CPU :=
  let c := { c with pc := c.pc + length }
  let c := c.relativeConditionalBranch m c.carry
  { c with total_cycles := c.total_cycles + cycles }

/-- CPU::bvc (opcode 0x50). -/
def CPU.bvc (c : CPU) (m : Mem) (length cycles : Nat) : CPU :=
  let c := { c with pc := c.pc + length }
  let c := c.relativeConditionalBranch m (!c.overflow)
  { c with total_cycles := c.total_cycles + cycles }

/-- CPU::bvs (opcode 0x70). -/
def CPU.bvs (c : CPU) (m : Mem) (length cycles : Nat) : CPU :=
  let c := { c with pc := c.pc + length }
  let c := c.relativeConditionalBranch m c.overflow
  { c with total_cycles := c.total_cycles + cycles }

/-- CPU::bmi (opcode 0x30). -/
def CPU.bmi (c : CPU) (m : Mem) (length cycles : Nat) : CPU :=
  let c := { c with pc := c.pc + length }
  let c := c.relativeConditionalBranch m c.negative
  { c with total_cycles := c.total_cycles + cycles }

/-- CPU::bpl (opcode 0x10). -/
def CPU.bpl (c : CPU) (m : Mem) (length cycles : Nat) : CPU :=
  let c := { c with pc := c.pc + length }
  let c := c.relativeConditionalBranch m (!c.negative)
  { c with total_cycles := c.total_cycles + cycles }

end Mos6502

namespace Nes

/-- Ram<SIZE> indexing (nes/src/memory.rs): `bytes[(index as usize) % SIZE]`.
The `% 256` models the `u8` content type. -/
def ramRead (SIZE : Nat) (bytes : Nat → Nat) (index : Nat) : Nat :=
  bytes (index % SIZE) % 256

/-- Ram<SIZE> index_mut followed by a store. -/
def ramWrite (SIZE : Nat) (bytes : Nat → Nat) (index value : Nat) : Nat → Nat :=
  fun i => if i = index % SIZE then value % 256 else bytes i

/-- Rom<SIZE> indexing: `bytes[(index as usize) % SIZE]`. -/
def romRead (SIZE : Nat) (bytes : Nat → Nat) (index : Nat) : Nat :=
  bytes (index % SIZE) % 256

/-- PaletteRam::mirror: $10/$14/$18/$1C mirror $00/$04/$08/$0C. -/
def paletteMirror (address : Nat) : Nat :=
  if 16 ≤ address ∧ address % 4 = 0 then address - 16 else address

/-- PaletteRam indexing: `bytes[self.mirror(index) as usize % 32]`. -/
def paletteRead (bytes : Nat → Nat) (index : Nat) : Nat :=
  bytes (paletteMirror index % 32) % 256

/-- PaletteRam index_mut followed by a store. -/
def paletteWrite (bytes : Nat → Nat) (index value : Nat) : Nat → Nat :=
  fun i => if i = paletteMirror index % 32 then value % 256 else bytes i

/-- PpuStatus ($2002) backing byte (nes/src/ppu/registers/ppu_status.rs). -/
structure PpuStatus where
  val : Nat

/-- PpuStatus::new. -/
def PpuStatus.new : PpuStatus := ⟨0⟩

/-- PpuStatus::bits. -/
def PpuStatus.bits (s : PpuStatus) : Nat := s.val

/-- PpuStatus::set_vblank_started: `self.0 &= 0x7F; self.0 |= status << 7`. -/
def PpuStatus.setVblankStarted (s : PpuStatus) (status : Bool) : PpuStatus :=
  ⟨s.val &&& 0x7F ||| (if status then 1 else 0) <<< 7⟩

/-- PpuStatus::set_sprite_zero_hit. -/
def PpuStatus.setSpriteZeroHit (s : PpuStatus) (status : Bool) : PpuStatus :=
  ⟨s.val &&& 0xBF ||| (if status then 1 else 0) <<< 6⟩

/-- PpuStatus::set_sprite_overflow. -/
def PpuStatus.setSpriteOverflow (s : PpuStatus) (status : Bool) : PpuStatus :=
  ⟨s.val &&& 0xDF ||| (if status then 1 else 0) <<< 5⟩

/-- PpuStatus::read: return current bits, then clear vblank_started. -/
def PpuStatus.read (s : PpuStatus) : Nat × PpuStatus :=
  (s.val, s.setVblankStarted false)

/-- OamAddr ($2003) register (nes/src/ppu/registers/oam_addr.rs). -/
structure OamAddr where
  value : Nat

/-- OamAddr::new. -/
def OamAddr.new : OamAddr := ⟨0⟩

/-- OamAddr::get. -/
def OamAddr.get (o : OamAddr) : Nat := o.value

/-- OamAddr::write. -/
def OamAddr.write (o : OamAddr) (value : Nat) : OamAddr := ⟨value % 256⟩

/-- OamAddr::increment: `wrapping_add(1)` on a u8. -/
def OamAddr.increment (o : OamAddr) : OamAddr := ⟨(o.value + 1) % 256⟩

/-- OamAddr::reset_latch. -/
def OamAddr.resetLatch (o : OamAddr) : OamAddr := ⟨0⟩

/-- PpuScroll ($2005) register (nes/src/ppu/registers/ppu_scroll.rs): its own
two-write toggle `first_write`. -/
structure PpuScroll where
  offset_x : Nat
  offset_y : Nat
  first_write : Bool

/-- PpuScroll::new. -/
def PpuScroll.new : PpuScroll := ⟨0, 0, true⟩

/-- PpuScroll::write: first write lands in offset_x, second in offset_y,
then the register's own toggle flips. -/
def PpuScroll.write (p : PpuScroll) (value : Nat) : PpuScroll :=
  let p :=
    if p.first_write then { p with offset_x := value % 256 }
    else { p with offset_y := value % 256 }
  { p with first_write := !p.first_write }

/-- PpuScroll::reset_latch. -/
def PpuScroll.resetLatch (p : PpuScroll) : PpuScroll := ⟨0, 0, true⟩

/-- PpuAddr ($2006) register (nes/src/ppu/registers/ppu_addr.rs): a shift
register, no write toggle of its own. -/
structure PpuAddr where
  address : Nat

/-- PpuAddr::new. -/
def PpuAddr.new : PpuAddr := ⟨0⟩

/-- PpuAddr::write: `address <<= 8; address |= value; address &= 0x3FFF`
(the shift is on a u16, hence the explicit `% 65536`). -/
def PpuAddr.write (p : PpuAddr) (value : Nat) : PpuAddr :=
  ⟨((p.address <<< 8) % 65536 ||| value % 256) &&& 0x3FFF⟩

/-- PpuAddr::get. -/
def PpuAddr.get (p : PpuAddr) : Nat := p.address

/-- PpuAddr::reset_latch. -/
def PpuAddr.resetLatch (p : PpuAddr) : PpuAddr := ⟨0⟩

/-- PpuAddr::increment_address: `wrapping_add` on a u16, then `&= 0x3FFF`. -/
def PpuAddr.incrementAddress (p : PpuAddr) (increment : Nat) : PpuAddr :=
  ⟨((p.address + increment) % 65536) &&& 0x3FFF⟩

/-- Sprite sizes (nes/src/ppu/rendering.rs). -/
inductive SpriteSize where
  | eightByEight
  | eightBySixteen

/-- PpuCtrl ($2000) register (nes/src/ppu/registers/ppu_ctrl.rs). -/
structure PpuCtrl where
  value : Nat

/-- PpuCtrl::new. -/
def PpuCtrl.new : PpuCtrl := ⟨0⟩

/-- PpuCtrl::write. -/
def PpuCtrl.write (p : PpuCtrl) (value : Nat) : PpuCtrl := ⟨value % 256⟩

/-- PpuCtrl::nametable_base_address. -/
def PpuCtrl.nametableBaseAddress (p : PpuCtrl) : Nat :=
  match p.value &&& 0x03 with
  | 0 => 0x2000
  | 1 => 0x2400
  | 2 => 0x2800
  | _ => 0x2C00

/-- PpuCtrl::vram_address_increment. -/
def PpuCtrl.vramAddressIncrement (p : PpuCtrl) : Nat :=
  if p.value &&& 0x04 != 0 then 32 else 1

/-- PpuCtrl::background_pattern_table_address. -/
def PpuCtrl.backgroundPatternTableAddress (p : PpuCtrl) : Nat :=
  if p.value &&& 0x10 != 0 then 0x1000 else 0x0000

/-- PpuCtrl::sprite_size. -/
def PpuCtrl.spriteSize (p : PpuCtrl) : SpriteSize :=
  if p.value &&& 0x20 != 0 then .eightBySixteen else .eightByEight

/-- PpuCtrl::nmi_enabled. -/
def PpuCtrl.nmiEnabled (p : PpuCtrl) : Bool :=
  p.value &&& 0x80 != 0

/-- PpuMask ($2001) register (nes/src/ppu/registers/ppu_mask.rs). -/
structure PpuMask where
  value : Nat

/-- PpuMask::new. -/
def PpuMask.new : PpuMask := ⟨0⟩

/-- PpuMask::write. -/
def PpuMask.write (p : PpuMask) (value : Nat) : PpuMask := ⟨value % 256⟩

/-- PpuMask::render_background. -/
def PpuMask.renderBackground (p : PpuMask) : Bool :=
  p.value &&& 0x08 != 0

/-- PpuMask::render_sprites. -/
def PpuMask.renderSprites (p : PpuMask) : Bool :=
  p.value &&& 0x10 != 0

/-- TileSlice::pattern_color (nes/src/ppu/rendering.rs). -/
def tilePatternColor (lowerBitPlane upperBitPlane pixel : Nat) : Nat :=
  let lowerBitSet := lowerBitPlane &&& (1 <<< (7 - pixel)) != 0
  let upperBitSet := upperBitPlane &&& (1 <<< (7 - pixel)) != 0
  (if upperBitSet then 1 else 0) <<< 1 ||| (if lowerBitSet then 1 else 0)

/-- BackgroundSlice (nes/src/ppu/rendering.rs): two pattern planes plus the
2-bit attribute palette section. -/
structure BackgroundSlice where
  lowerBitPlane : Nat
  upperBitPlane : Nat
  paletteSection : Nat

/-- BackgroundSlice::new. -/
def BackgroundSlice.new (lower upper palette : Nat) : BackgroundSlice :=
  ⟨lower, upper, palette⟩

/-- BackgroundSlice::color. -/
def BackgroundSlice.color (b : BackgroundSlice) (pixel : Nat) : Nat :=
  let patternColor := tilePatternColor b.lowerBitPlane b.upperBitPlane pixel
  if patternColor ≠ 0 then (b.paletteSection % 256) <<< 2 ||| patternColor
  else 0

/-- Sprite::contains_point, reading sprite record `i` directly from OAM
(OAM byte 0 is y, byte 3 is x; width 8, height 8 or 16). -/
def spriteContainsPoint (oam : Nat → Nat) (i x y : Nat) (size : SpriteSize) : Bool :=
  let width := 8
  let height := match size with
    | .eightByEight => 8
    | .eightBySixteen => 16
  let xPos := oam (4 * i + 3) % 256
  let yPos := oam (4 * i) % 256
  decide (xPos ≤ x ∧ x < xPos + width ∧ yPos ≤ y ∧ y < yPos + height)

/-- The sprite scan of PPU::cycle: the first of the 64 OAM records whose
bounding box contains the dot, if any. -/
def firstSpriteContaining (oam : Nat → Nat) (x y : Nat) (size : SpriteSize) : Option Nat :=
  (List.range 64).find? (fun i => spriteContainsPoint oam i x y size)

/-- Frame buffer allocation size (nes/src/frame.rs):
WIDTH * HEIGHT * BYTES_PER_PIXEL. -/
def frameLength : Nat := 256 * 240 * 3

/-- Frame::write index arithmetic:
`base_idx = (y * Frame::WIDTH + x) * Frame::BYTES_PER_PIXEL`. -/
def frameBaseIdx (x y : Nat) : Nat := (y * 256 + x) * 3

/-- The frame-buffer operations a PPU cycle performs. -/
inductive FrameOp where
  | clearWith (rgb : Nat × Nat × Nat)
  | write (x y : Nat) (rgb : Nat × Nat × Nat)

/-- Whether a FrameOp is a Frame::write call, and at which dot. -/
def FrameOp.isWriteAt (op : FrameOp) (x y : Nat) : Prop :=
  match op with
  | .clearWith _ => False
  | .write wx wy _ => wx = x ∧ wy = y

/-- The PPU state (nes/src/ppu/mod.rs, struct PPU). -/
structure PPU where
  ppu_ctrl : PpuCtrl
  ppu_mask : PpuMask
  ppu_status : PpuStatus
  oam_addr : OamAddr
  ppu_scroll : PpuScroll
  ppu_addr : PpuAddr
  oam : Nat → Nat
  palette_ram : Nat → Nat
  ppu_data_read_buffer : Nat
  x : Nat
  y : Nat
  current_background_slice : BackgroundSlice
  nmi_interrupt : Bool

/-- PPU::new. -/
def PPU.new : PPU :=
  { ppu_ctrl := PpuCtrl.new, ppu_mask := PpuMask.new, ppu_status := PpuStatus.new,
    oam_addr := OamAddr.new, ppu_scroll := PpuScroll.new, ppu_addr := PpuAddr.new,
    oam := fun _ => 0, palette_ram := fun _ => 0, ppu_data_read_buffer := 0,
    x := 0, y := 0, current_background_slice := BackgroundSlice.new 0 0 0,
    nmi_interrupt := false }

/-- PPU::in_vblank: `y >= 240`. -/
def PPU.inVblank (p : PPU) : Bool :=
  decide (240 ≤ p.y)

/-- The NTSC palette lookup.
Modelled from the spec: the 64-entry NTSC palette table lives in
nes/src/ppu/palettes.rs, which is absent from the sources at hand; the spec
says only that the palette index selects an RGB triple from a fixed 64-entry
table.  The claims verified here do not depend on the entries, so the PPU
cycle is parameterized over the table. -/
abbrev NtscPalette := Nat → Nat × Nat × Nat

/-- PPU::fetch_background_slice.  The cartridge is abstracted, as in the
source, to its `ppu_read` operation; `none` models a cartridge panic. -/
def PPU.fetchBackgroundSlice (p : PPU) (cartRead : Nat → Option Nat) : Option PPU := do
  let tileX := p.x / 8
  let tileY := p.y / 8
  let fineY := p.y % 8
  let nametableAddress := p.ppu_ctrl.nametableBaseAddress
  let nametableOffset := tileY * 32 + tileX
  let nametableEntry ← cartRead (nametableAddress + nametableOffset)
  let patternTableAddress := p.ppu_ctrl.backgroundPatternTableAddress
  let patternSliceOffset := (nametableEntry % 256) <<< 4 ||| fineY
  let lowerBitPlane ← cartRead (patternTableAddress + patternSliceOffset)
  let upperBitPlane ← cartRead (patternTableAddress + patternSliceOffset + 8)
  let attributeTableAddress := nametableAddress + 0x3C0
  let attributeTableOffset := (tileY / 4) * 8 + tileX / 4
  let attributeByte ← cartRead (attributeTableAddress + attributeTableOffset)
  let tileQuadrant := ((tileY / 2) % 2) <<< 1 ||| (tileX / 2) % 2
  let paletteSection := (attributeByte >>> (tileQuadrant * 2)) &&& 0x03
  some { p with current_background_slice :=
          BackgroundSlice.new lowerBitPlane upperBitPlane paletteSection }

/-- The visible-dot block of PPU::cycle (the `if self.x < 256 && self.y < 240`
body): fetch a background slice every 8 dots, then emit the background pixel
write and the sprite placeholder write when the respective PPUMASK bits are
on.  Outside the visible area nothing is rendered. -/
def PPU.renderDot (p : PPU) (cartRead : Nat → Option Nat) (pal : NtscPalette) :
    Option (PPU × List FrameOp) :=
  if p.x < 256 ∧ p.y < 240 then do
    let p ← if p.x % 8 = 0 then p.fetchBackgroundSlice cartRead else some p
    let bgOps : List FrameOp :=
      if p.ppu_mask.renderBackground then
        let colorIndex := p.current_background_slice.color (p.x % 8)
        let paletteIndex := paletteRead p.palette_ram colorIndex
        let color := pal paletteIndex
        [.write p.x p.y color]
      else []
    let spriteOps : List FrameOp :=
      if p.ppu_mask.renderSprites then
        match firstSpriteContaining p.oam p.x p.y p.ppu_ctrl.spriteSize with
        | some _ => [.write p.x p.y (0, 0, 255)]
        | none => []
      else []
    some (p, bgOps ++ spriteOps)
  else some (p, ([] : List FrameOp))

/-- The dot/scanline counter update at the end of PPU::cycle: advance x; on
end of scanline wrap to the next line; at y = 241 raise the NMI edge (when
enabled) and set the VBlank flag; at y = 262 wrap to y = 0 clearing VBlank,
sprite-0-hit and the NMI latch. -/
def PPU.advanceCounters (p : PPU) : PPU :=
  let p : PPU := { p with x := p.x + 1 }
  if 341 ≤ p.x then
    let p : PPU := { p with x := 0, y := p.y + 1 }
    let p : PPU :=
      if p.y = 241 then
        let p : PPU :=
          if p.ppu_ctrl.nmiEnabled then { p with nmi_interrupt := true } else p
        { p with ppu_status := (p.ppu_status.setVblankStarted true).setSpriteZeroHit false }
      else p
    if 262 ≤ p.y then
      { p with y := 0, nmi_interrupt := false,
               ppu_status := (p.ppu_status.setVblankStarted false).setSpriteZeroHit false }
    else p
  else p

/-- PPU::cycle: one dot.  Returns the new PPU state together with the list of
frame-buffer operations performed during the dot: the (0,0) frame clear, the
OAMADDR reset during dots 257..320, the visible-dot rendering, then the
counter update. -/
def PPU.cycle (p : PPU) (cartRead : Nat → Option Nat) (pal : NtscPalette) :
    Option (PPU × List FrameOp) := do
  let clearOps : List FrameOp :=
    if p.x = 0 ∧ p.y = 0 then [.clearWith (255, 0, 255)] else []
  let p :=
    if 257 ≤ p.x ∧ p.x ≤ 320 then { p with oam_addr := p.oam_addr.resetLatch } else p
  let (p, renderOps) ← p.renderDot cartRead pal
  some (p.advanceCounters, clearOps ++ renderOps)

/-- PPU::tick: run `cycles` dots, collecting the frame operations. -/
def PPU.tick (p : PPU) (cartRead : Nat → Option Nat) (pal : NtscPalette) :
    Nat → Option (PPU × List FrameOp)
  | 0 => some (p, [])
  | n + 1 => do
      let (p, ops) ← p.cycle cartRead pal
      let (p, rest) ← p.tick cartRead pal n
      some (p, ops ++ rest)

/-- PPU::take_interrupt: return and clear the NMI edge latch. -/
def PPU.takeInterrupt (p : PPU) : Bool × PPU :=
  (p.nmi_interrupt, { p with nmi_interrupt := false })

/-- PPU::oam_dma: `self.oam.copy_from_slice(oam_data)` — a bulk overwrite of
the whole OAM from index 0. -/
def PPU.oamDma (p : PPU) (oamData : List Nat) : PPU :=
  { p with oam := fun i => oamData.getD i 0 }

/-- Nametable mirroring (nes/src/cartridge.rs::mirror_vram_address);
FourScreen is `unimplemented` and panics. -/
inductive Mirroring where
  | horizontal
  | vertical
  | fourScreen

/-- mirror_vram_address. -/
def mirrorVramAddress (address : Nat) (m : Mirroring) : Option Nat :=
  match m with
  | .horizontal => some ((address % 0x400) + 0x400 * (address / 0x800))
  | .vertical => some (address % 0x800)
  | .fourScreen => none

/-- The NROM mapper state (nes/src/cartridge.rs, struct NROM). -/
structure NROM where
  vram : Nat → Nat
  prg_rom : Nat → Nat
  prg_rom_size : Nat
  chr_rom : Nat → Nat
  prg_ram : Option (Nat → Nat)
  mirroring : Mirroring

/-- NROM::cpu_read; `none` is the catch-all `panic` arm for addresses below
$6000 (i.e. $4020–$5FFF as reached from the CPU bus). -/
def NROM.cpuRead (c : NROM) (address : Nat) : Option Nat :=
  if 0x6000 ≤ address ∧ address ≤ 0x7FFF then
    some (match c.prg_ram with
          | some prgRam => ramRead 2048 prgRam (address - 0x6000)
          | none => 0)
  else if 0x8000 ≤ address then
    some (romRead c.prg_rom_size c.prg_rom (address - 0x8000))
  else
    none

/-- NROM::cpu_write; `none` is the catch-all `panic` arm. -/
def NROM.cpuWrite (c : NROM) (address value : Nat) : Option NROM :=
  if 0x6000 ≤ address ∧ address ≤ 0x7FFF then
    some (match c.prg_ram with
          | some prgRam => { c with prg_ram := some (ramWrite 2048 prgRam (address - 0x6000) value) }
          | none => c)
  else if 0x8000 ≤ address then
    some c
  else
    none

/-- NROM::ppu_read; `none` is the catch-all `panic` arm (and the FourScreen
`unimplemented`). -/
def NROM.ppuRead (c : NROM) (address : Nat) : Option Nat :=
  if address ≤ 0x1FFF then
    some (romRead 8192 c.chr_rom address)
  else if address ≤ 0x2FFF then do
    let mirroredAddress ← mirrorVramAddress (address - 0x2000) c.mirroring
    some (ramRead 2048 c.vram mirroredAddress)
  else
    none

/-- NROM::ppu_write; writes to CHR-ROM are ignored. -/
def NROM.ppuWrite (c : NROM) (address value : Nat) : Option NROM :=
  if address ≤ 0x1FFF then
    some c
  else if address ≤ 0x2FFF then do
    let mirroredAddress ← mirrorVramAddress (address - 0x2000) c.mirroring
    some { c with vram := ramWrite 2048 c.vram mirroredAddress value }
  else
    none

/-- PPU::peek_ppu_status. -/
def PPU.peekPpuStatus (p : PPU) : Nat :=
  p.ppu_status.bits

/-- PPU::read_ppu_status ($2002 read): return the bits, clear vblank_started,
and reset BOTH the $2006 and the $2005 write state. -/
def PPU.readPpuStatus (p : PPU) : Nat × PPU :=
  let (value, st) := p.ppu_status.read
  (value, { p with ppu_status := st,
                   ppu_addr := p.ppu_addr.resetLatch,
                   ppu_scroll := p.ppu_scroll.resetLatch })

/-- PPU::write_oam_addr. -/
def PPU.writeOamAddr (p : PPU) (value : Nat) : PPU :=
  { p with oam_addr := p.oam_addr.write value }

/-- PPU::peek_oam_data. -/
def PPU.peekOamData (p : PPU) : Nat :=
  ramRead 256 p.oam p.oam_addr.get

/-- PPU::read_oam_data: auto-increments OAMADDR outside VBlank. -/
def PPU.readOamData (p : PPU) : Nat × PPU :=
  let oamData := ramRead 256 p.oam p.oam_addr.get
  let p := if !p.inVblank then { p with oam_addr := p.oam_addr.increment } else p
  (oamData, p)

/-- PPU::write_oam_data. -/
def PPU.writeOamData (p : PPU) (value : Nat) : PPU :=
  { p with oam := ramWrite 256 p.oam p.oam_addr.get value,
           oam_addr := p.oam_addr.increment }

/-- PPU::write_ppu_scroll. -/
def PPU.writePpuScroll (p : PPU) (value : Nat) : PPU :=
  { p with ppu_scroll := p.ppu_scroll.write value }

/-- PPU::write_ppu_addr. -/
def PPU.writePpuAddr (p : PPU) (value : Nat) : PPU :=
  { p with ppu_addr := p.ppu_addr.write value }

/-- PPU::write_ppu_ctrl. -/
def PPU.writePpuCtrl (p : PPU) (value : Nat) : PPU :=
  { p with ppu_ctrl := p.ppu_ctrl.write value }

/-- PPU::write_ppu_mask. -/
def PPU.writePpuMask (p : PPU) (value : Nat) : PPU :=
  { p with ppu_mask := p.ppu_mask.write value }

/-- PPU::peek_ppu_data; the final arm is `unreachable` (the latched address
is always masked to $3FFF). -/
def PPU.peekPpuData (p : PPU) : Option Nat :=
  let address := p.ppu_addr.get
  if address ≤ 0x3EFF then some p.ppu_data_read_buffer
  else if address ≤ 0x3FFF then some (paletteRead p.palette_ram (address - 0x3F00))
  else none

/-- PPU::read_ppu_data ($2007 read): buffered below $3F00, immediate in
palette space; the latched address post-increments either way. -/
def PPU.readPpuData (p : PPU) (cart : NROM) : Option (Nat × PPU) :=
  let address := p.ppu_addr.get
  let increment := p.ppu_ctrl.vramAddressIncrement
  let p := { p with ppu_addr := p.ppu_addr.incrementAddress increment }
  if address ≤ 0x3EFF then do
    let bufferedRead ← cart.ppuRead address
    some (p.ppu_data_read_buffer, { p with ppu_data_read_buffer := bufferedRead })
  else if address ≤ 0x3FFF then
    some (paletteRead p.palette_ram (address - 0x3F00), p)
  else
    none

/-- PPU::write_ppu_data. -/
def PPU.writePpuData (p : PPU) (cart : NROM) (value : Nat) : Option (PPU × NROM) :=
  let address := p.ppu_addr.get
  let increment := p.ppu_ctrl.vramAddressIncrement
  let p := { p with ppu_addr := p.ppu_addr.incrementAddress increment }
  if address ≤ 0x3EFF then do
    let cart ← cart.ppuWrite address value
    some (p, cart)
  else if address ≤ 0x3FFF then
    some ({ p with palette_ram := paletteWrite p.palette_ram (address - 0x3F00) value }, cart)
  else
    none

/-- The eight memory-mapped PPU registers (nes/src/ppu/mod.rs). -/
inductive PpuRegister where
  | ppuCtrl
  | ppuMask
  | ppuStatus
  | oamAddr
  | oamData
  | ppuScroll
  | ppuAddr
  | ppuData

/-- PPU::peek_register: non-mutating register read. -/
def PPU.peekRegister (p : PPU) (register : PpuRegister) : Option Nat :=
  match register with
  | .ppuCtrl => some 0
  | .ppuMask => some 0
  | .ppuStatus => some p.peekPpuStatus
  | .oamAddr => some 0
  | .oamData => some p.peekOamData
  | .ppuScroll => some 0
  | .ppuAddr => some 0
  | .ppuData => p.peekPpuData

/-- PPU::read_register: side-effecting register read. -/
def PPU.readRegister (p : PPU) (cart : NROM) (register : PpuRegister) :
    Option (Nat × PPU) :=
  match register with
  | .ppuCtrl => some (0, p)
  | .ppuMask => some (0, p)
  | .ppuStatus => some p.readPpuStatus
  | .oamAddr => some (0, p)
  | .oamData => some p.readOamData
  | .ppuScroll => some (0, p)
  | .ppuAddr => some (0, p)
  | .ppuData => p.readPpuData cart

/-- PPU::write_register. -/
def PPU.writeRegister (p : PPU) (cart : NROM) (register : PpuRegister) (value : Nat) :
    Option (PPU × NROM) :=
  match register with
  | .ppuCtrl => some (p.writePpuCtrl value, cart)
  | .ppuMask => some (p.writePpuMask value, cart)
  | .ppuStatus => some (p, cart)
  | .oamAddr => some (p.writeOamAddr value, cart)
  | .oamData => some (p.writeOamData value, cart)
  | .ppuScroll => some (p.writePpuScroll value, cart)
  | .ppuAddr => some (p.writePpuAddr value, cart)
  | .ppuData => p.writePpuData cart value

/-- A controller port (nes/src/input/mod.rs).  The read cursor `index` is a
`u8` in the source; its increment is modelled with the release-mode
two's-complement wrap `% 256`. -/
structure ControllerPort where
  read_buffer : List Nat
  index : Nat
  overrun_default : Nat
  incoming_state : Option (List Nat × Nat)

/-- ControllerPort::default. -/
def ControllerPort.default : ControllerPort :=
  ⟨[0, 0, 0, 0, 0, 0, 0, 0], 0, 1, none⟩

/-- ControllerPort::poll: apply any pending snapshot, rewind the cursor. -/
def ControllerPort.poll (p : ControllerPort) : ControllerPort :=
  let p :=
    match p.incoming_state with
    | some (readBuffer, overrunDefault) =>
        { p with read_buffer := readBuffer, overrun_default := overrunDefault,
                 incoming_state := none }
    | none => p
  { p with index := 0 }

/-- ControllerPort::current_byte:
`read_buffer.get(index).unwrap_or(overrun_default)`. -/
def ControllerPort.currentByte (p : ControllerPort) : Nat :=
  (p.read_buffer.get? p.index).getD p.overrun_default

/-- ControllerPort::peek. -/
def ControllerPort.peek (p : ControllerPort) : Nat :=
  p.currentByte

/-- ControllerPort::read: return the current byte and advance the u8 cursor. -/
def ControllerPort.read (p : ControllerPort) : Nat × ControllerPort :=
  (p.currentByte, { p with index := (p.index + 1) % 256 })

/-- StandardController (nes/src/input/standard_controller.rs). -/
structure StandardController where
  a : Bool
  b : Bool
  select : Bool
  start : Bool
  up : Bool
  down : Bool
  left : Bool
  right : Bool

/-- StandardController::read_buffer: the 8 button bits, in order
A, B, Select, Start, Up, Down, Left, Right. -/
def StandardController.readBuffer (s : StandardController) : List Nat :=
  [if s.a then 1 else 0, if s.b then 1 else 0, if s.select then 1 else 0,
   if s.start then 1 else 0, if s.up then 1 else 0, if s.down then 1 else 0,
   if s.left then 1 else 0, if s.right then 1 else 0]

/-- StandardController::overrun_default. -/
def StandardController.overrunDefault (_ : StandardController) : Nat := 1

/-- ControllerPort::update at a StandardController. -/
def ControllerPort.update (p : ControllerPort) (s : StandardController) : ControllerPort :=
  { p with incoming_state := some (s.readBuffer, s.overrunDefault) }

/-- The ControllerPortA arm of CpuBus::write_byte for one port: a write with
bit 0 set polls the port; a bit-0-clear write does nothing. -/
def controllerPortWrite (p : ControllerPort) (value : Nat) : ControllerPort :=
  if value &&& 0x01 ≠ 0 then p.poll else p

/-- A strobe: write 1, then 0, to $4016 (as it affects one port). -/
def strobe (p : ControllerPort) : ControllerPort :=
  controllerPortWrite (controllerPortWrite p 1) 0

/-- Iterate ControllerPort::read n times, keeping only the port state. -/
def ControllerPort.readN (p : ControllerPort) : Nat → ControllerPort
  | 0 => p
  | n + 1 => (p.read).2.readN n

/-- The CPU-bus address decoding (nes/src/cpu_bus.rs, enum MappedAddress). -/
inductive MappedAddress where
  | ram (address : Nat)
  | ppu (register : PpuRegister)
  | oamDma
  | controllerPortA
  | controllerPortB
  | cartridge (address : Nat)
  | unimplemented

/-- cpu_bus.rs::map_address. -/
def mapAddress (address : Nat) : MappedAddress :=
  if address ≤ 0x1FFF then .ram address
  else if address ≤ 0x3FFF then
    if address % 8 = 0 then .ppu .ppuCtrl
    else if address % 8 = 1 then .ppu .ppuMask
    else if address % 8 = 2 then .ppu .ppuStatus
    else if address % 8 = 3 then .ppu .oamAddr
    else if address % 8 = 4 then .ppu .oamData
    else if address % 8 = 5 then .ppu .ppuScroll
    else if address % 8 = 6 then .ppu .ppuAddr
    else .ppu .ppuData
  else if address = 0x4014 then .oamDma
  else if address = 0x4016 then .controllerPortA
  else if address = 0x4017 then .controllerPortB
  else if 0x4020 ≤ address then .cartridge address
  else .unimplemented

/-- The state borrowed by the CpuBus multiplexer for one tick. -/
structure NesState where
  ram : Nat → Nat
  ppu : PPU
  port_a : ControllerPort
  port_b : ControllerPort
  cart : NROM

/-- CpuBus::read_byte; `none` models a panic propagating out of the bus. -/
def CpuBus.readByte (st : NesState) (address : Nat) : Option (Nat × NesState) :=
  match mapAddress address with
  | .ram a => some (ramRead 2048 st.ram a, st)
  | .ppu register =>
      (st.ppu.readRegister st.cart register).map (fun r => (r.1, { st with ppu := r.2 }))
  | .oamDma => some (0, st)
  | .controllerPortA =>
      let r := st.port_a.read
      some (r.1, { st with port_a := r.2 })
  | .controllerPortB =>
      let r := st.port_b.read
      some (r.1, { st with port_b := r.2 })
  | .cartridge a => (st.cart.cpuRead a).map (fun v => (v, st))
  | .unimplemented => some (0, st)

/-- cpu_bus.rs::read_page helper: `count` sequential bus reads from `base`,
threading the bus state. -/
def readBytesFrom (st : NesState) (base : Nat) : Nat → Option (List Nat × NesState)
  | 0 => some ([], st)
  | n + 1 => do
      let (b, st) ← CpuBus.readByte st base
      let (rest, st) ← readBytesFrom st (base + 1) n
      some (b :: rest, st)

/-- cpu_bus.rs::read_page: the 256 bytes of page `page` read through the bus. -/
def readPage (st : NesState) (page : Nat) : Option (List Nat × NesState) :=
  readBytesFrom st ((page % 256) * 256) 256

/-- CpuBus::write_byte; the OamDma arm reads the page through the bus and
hands it to PPU::oam_dma. -/
def CpuBus.writeByte (st : NesState) (address value : Nat) : Option NesState :=
  match mapAddress address with
  | .ram a => some { st with ram := ramWrite 2048 st.ram a value }
  | .ppu register =>
      (st.ppu.writeRegister st.cart register value).map
        (fun r => { st with ppu := r.1, cart := r.2 })
  | .oamDma => do
      let (pageData, st) ← readPage st value
      some { st with ppu := st.ppu.oamDma pageData }
  | .controllerPortA =>
      if value &&& 0x01 ≠ 0 then
        some { st with port_a := st.port_a.poll, port_b := st.port_b.poll }
      else some st
  | .controllerPortB => some st
  | .cartridge a => (st.cart.cpuWrite a value).map (fun c => { st with cart := c })
  | .unimplemented => some st

/-- ExecutionState (mos_6502/src/debugging.rs).  `Instruction::new` is a pure
decoder of the three fetched bytes (disassembly.rs); the snapshot here keeps
the raw bytes, which determine the decoded instruction. -/
structure ExecutionState where
  opcode : Nat
  operand1 : Nat
  operand2 : Nat
  a : Nat
  x : Nat
  y : Nat
  p : Nat
  s : Nat
  pc : Nat
  cycle_number : Nat

/-- ExecutionState::new: the three instruction bytes are fetched with
`Bus16::read_byte` — the side-effecting read, not `peek_byte` — so taking a
snapshot threads (and may change) the bus state; `none` models a bus panic. -/
def ExecutionState.new (cpu : Mos6502.CPU) (st : NesState) :
    Option (ExecutionState × NesState) := do
  let (opcode, st) ← CpuBus.readByte st cpu.pc
  let (operand1, st) ← CpuBus.readByte st (cpu.pc + 1)
  let (operand2, st) ← CpuBus.readByte st (cpu.pc + 2)
  some ({ opcode := opcode, operand1 := operand1, operand2 := operand2,
          a := cpu.a, x := cpu.x, y := cpu.y, p := cpu.statusRegister,
          s := cpu.s, pc := cpu.pc, cycle_number := cpu.total_cycles }, st)

/-- CPU::current_state: `ExecutionState::new(self, bus)`. -/
def currentState (cpu : Mos6502.CPU) (st : NesState) :
    Option (ExecutionState × NesState) :=
  ExecutionState.new cpu st

/-- iNES loader error kinds (nes/src/rom.rs, enum RomLoadError). -/
inductive RomLoadError where
  | unsupportedFormat
  | unsupportedConsole
  | unsupportedMapper
  | malformedRomFile
deriving DecidableEq

/-- Console types from flags7 bits 0–1 (nes/src/rom.rs). -/
inductive ConsoleType where
  | nes
  | vsSystem
  | playchoice10
  | extendedConsoleType
deriving DecidableEq

/-- A parsed ROM file (nes/src/rom.rs, struct RomFile; the header kept as its
16 raw bytes). -/
structure RomFile where
  header : List Nat
  trainer : Option (List Nat)
  prg_rom : List Nat
  chr_rom : List Nat
deriving DecidableEq

/-- INesHeader::prg_rom_size: `bytes[4] * 16384`. -/
def prgRomSize (header : List Nat) : Nat :=
  header.getD 4 0 * 16384

/-- INesHeader::chr_rom_size: `bytes[5] * 8192`. -/
def chrRomSize (header : List Nat) : Nat :=
  header.getD 5 0 * 8192

/-- INesHeader::has_trainer: flags6 bit 2. -/
def hasTrainer (header : List Nat) : Bool :=
  header.getD 6 0 &&& (1 <<< 2) != 0

/-- INesHeader::mapper_number: high nibble from flags7, low nibble from
flags6. -/
def mapperNumber (header : List Nat) : Nat :=
  (header.getD 7 0 &&& 0xF0) ||| (header.getD 6 0 &&& 0xF0) >>> 4

/-- INesHeader::console_type: flags7 bits 0–1. -/
def consoleType (header : List Nat) : ConsoleType :=
  match header.getD 7 0 &&& 0x03 with
  | 0 => .nes
  | 1 => .vsSystem
  | 2 => .playchoice10
  | _ => .extendedConsoleType

/-- INesHeader::is_ines_2_header: flags7 bits 2–3 equal to 2. -/
def isInes2Header (header : List Nat) : Bool :=
  header.getD 7 0 &&& 0x0C == 8

/-- A Rust slice `&bytes[start..stop]`: panics (`none`) when out of range. -/
def sliceRange (bytes : List Nat) (start stop : Nat) : Option (List Nat) :=
  if start ≤ stop ∧ stop ≤ bytes.length then
    some ((bytes.drop start).take (stop - start))
  else none

/-- The consume_bytes closure of RomFile::load: `bytes.get(cursor..cursor+n)`
(the non-panicking slice), `None` surfacing as MalformedRomFile. -/
def consumeBytes (bytes : List Nat) (cursor n : Nat) :
    Except RomLoadError (List Nat × Nat) :=
  if cursor + n ≤ bytes.length then
    .ok ((bytes.drop cursor).take n, cursor + n)
  else
    .error .malformedRomFile

/-- The bank-consuming tail of RomFile::load: the optional 512-byte trainer,
then PRG-ROM, then CHR-ROM, each through consume_bytes with the `?` operator
propagating the first error. -/
def loadBanks (bytes header : List Nat) : Except RomLoadError RomFile :=
  match (if hasTrainer header then
           (consumeBytes bytes 16 512).map (fun r => ((some r.1 : Option (List Nat)), r.2))
         else .ok (none, 16)) with
  | .error e => .error e
  | .ok tc =>
    match consumeBytes bytes tc.2 (prgRomSize header) with
    | .error e => .error e
    | .ok pc =>
      match consumeBytes bytes pc.2 (chrRomSize header) with
      | .error e => .error e
      | .ok cc => .ok { header := header, trainer := tc.1, prg_rom := pc.1, chr_rom := cc.1 }

/-- RomFile::load.  The outer Option captures the panicking operations (the
header slices, guarded by the length check); the Except carries the tagged
load errors. -/
def RomFile.load (bytes : List Nat) : Option (Except RomLoadError RomFile) :=
  if bytes.length < 16 then some (.error .malformedRomFile)
  else match sliceRange bytes 0 4 with
  | none => none
  | some magic =>
    if magic ≠ [0x4E, 0x45, 0x53, 0x1A] then some (.error .unsupportedFormat)
    else match sliceRange bytes 0 16 with
    | none => none
    | some header =>
      if isInes2Header header then some (.error .unsupportedFormat)
      else if mapperNumber header ≠ 0 then some (.error .unsupportedMapper)
      else if consoleType header ≠ ConsoleType.nes then some (.error .unsupportedConsole)
      else some (loadBanks bytes header)

/-- A trivial NROM cartridge (all-zero contents, no PRG-RAM). -/
def nromZero : NROM :=
  { vram := fun _ => 0, prg_rom := fun _ => 0, prg_rom_size := 16384,
    chr_rom := fun _ => 0, prg_ram := none, mirroring := .horizontal }

/-- A freshly powered NES bus state over the trivial cartridge. -/
def nesZero : NesState :=
  { ram := fun _ => 0, ppu := PPU.new, port_a := ControllerPort.default,
    port_b := ControllerPort.default, cart := nromZero }

/-- A bus state whose RAM holds 1 at address 1 (0 elsewhere) and whose PPU has
OAMADDR = 1. -/
def c4State : NesState :=
  { nesZero with ram := fun a => if a = 1 then 1 else 0,
                 ppu := { PPU.new with oam_addr := ⟨1⟩ } }

/-- A bus state whose PPU has the VBlank flag of PPUSTATUS set. -/
def c8State : NesState :=
  { nesZero with ppu := { PPU.new with ppu_status := ⟨0x80⟩ } }

/-- A CPU whose PC sits on the $2002 (PPUSTATUS) mirror. -/
def c8Cpu : Mos6502.CPU :=
  { Mos6502.CPU.new with pc := 0x2002 }

/-- A StandardController snapshot with only Start pressed. -/
def scStartOnly : StandardController :=
  ⟨false, false, false, true, false, false, false, false⟩

/-- A StandardController snapshot with no button pressed. -/
def scAllFalse : StandardController :=
  ⟨false, false, false, false, false, false, false, false⟩

/-- Latch a StandardController snapshot into a port, then strobe ($4016 ← 1,
then $4016 ← 0). -/
def latchSnapshot (p : ControllerPort) (s : StandardController) : ControllerPort :=
  strobe (p.update s)

/-- Every Frame::write emitted by the PPU is at a visible dot and its index
arithmetic stays inside the 256 x 240 x 3 buffer. -/
def opsInBounds (ops : List FrameOp) : Prop :=
  ∀ op ∈ ops, match op with
    | FrameOp.clearWith _ => True
    | FrameOp.write x y _ => x < 256 ∧ y < 240 ∧ frameBaseIdx x y + 2 < frameLength

end Nes

namespace Mos6502

/-- The value of a byte read back as `i8` and sign-extended. -/
def signedByteVal (b : Nat) : Int :=
  if b < 128 then (b : Int) else (b : Int) - 256

/-- The behaviour claimed for a conditional-branch operation dispatched as
`op(bus, 2, 2)`: not taken costs 2 cycles and advances PC by 2; taken adds
the signed offset to the post-increment PC and costs 3 cycles, or 4 when the
target is on a different page than the post-increment PC. -/
def BranchClaim (f : CPU → Mem → Nat → Nat → CPU) (cond : CPU → Bool) : Prop :=
  ∀ (c : CPU) (m : Mem), c.pc ≤ 0xFFFD →
    (cond c = false →
      (f c m 2 2).pc = c.pc + 2 ∧
      (f c m 2 2).total_cycles = c.total_cycles + 2) ∧
    (cond c = true →
      (f c m 2 2).pc =
        (((c.pc + 2 : Int) + signedByteVal (m.readByte (c.pc + 1))) % 65536).toNat ∧
      (f c m 2 2).total_cycles = c.total_cycles + 2 +
        (if CPU.crossesPageBoundary (c.pc + 2)
              ((((c.pc + 2 : Int) + signedByteVal (m.readByte (c.pc + 1))) % 65536).toNat)
         then 2 else 1))

end Mos6502

/-! ## Shared arithmetic helper lemmas -/

theorem nat_and_255_eq_mod (x : Nat) : x &&& 255 = x % 256 := by
  have h := Nat.and_pow_two_sub_one_eq_mod x 8
  norm_num at h
  exact h

theorem nat_and_16383_eq_mod (x : Nat) : x &&& 16383 = x % 16384 := by
  have h := Nat.and_pow_two_sub_one_eq_mod x 14
  norm_num at h
  exact h

namespace Mos6502

/-! ## C1: ADC -/

/-- C1: for every CPU state and (flat) bus, executing the ADC operation with
operand byte M = the bus byte at the resolved address sets A to
(A + M + C) mod 256, sets carry iff A + M + C exceeds 0xFF, sets overflow iff
bit 7 of ((sum ^ A) & (sum ^ M)) is set (A and M the pre-instruction values),
and sets N and Z from the new A. -/
theorem c1_adc_spec (c : CPU) (m : Mem) (address length cycles : Nat)
    (ha : c.a < 256) :
    (c.adc m address length cycles).a
        = (c.a + m.readByte address + (if c.carry then 1 else 0)) % 256 ∧
    ((c.adc m address length cycles).carry = true ↔
        255 < c.a + m.readByte address + (if c.carry then 1 else 0)) ∧
    ((c.adc m address length cycles).overflow = true ↔
        (((c.adc m address length cycles).a ^^^ c.a) &&&
         ((c.adc m address length cycles).a ^^^ m.readByte address) &&&
         (1 <<< 7)) ≠ 0) ∧
    ((c.adc m address length cycles).zero = true ↔
        (c.adc m address length cycles).a = 0) ∧
    ((c.adc m address length cycles).negative = true ↔
        (c.adc m address length cycles).a &&& (1 <<< 7) ≠ 0) := by
  have hM : m.readByte address < 256 := Nat.mod_lt _ (by norm_num)
  have ha' : (c.adc m address length cycles).a
      = ((c.a + m.readByte address) % 256 + (if c.carry then 1 else 0)) % 256 := rfl
  have hc : (c.adc m address length cycles).carry
      = (decide (255 < c.a + m.readByte address)
         || decide (255 < (c.a + m.readByte address) % 256 + (if c.carry then 1 else 0))) := rfl
  have hov : (c.adc m address length cycles).overflow
      = ((((c.adc m address length cycles).a ^^^ c.a) &&&
          ((c.adc m address length cycles).a ^^^ m.readByte address) &&&
          (1 <<< 7)) != 0) := rfl
  have hz : (c.adc m address length cycles).zero
      = ((c.adc m address length cycles).a == 0) := rfl
  have hn : (c.adc m address length cycles).negative
      = ((c.adc m address length cycles).a &&& (1 <<< 7) != 0) := rfl
  refine ⟨?_, ?_, ?_, ?_, ?_⟩
  · rw [ha']; omega
  · rw [hc]; simp only [Bool.or_eq_true, decide_eq_true_eq]; omega
  · rw [hov]; simp [bne_iff_ne]
  · rw [hz]; simp
  · rw [hn]; simp [bne_iff_ne]

/-- C1 witness: ADC at A = 200, C = 1, M = 100: A' = 45, with carry out. -/
theorem c1_witness :
    (({ CPU.new with a := 200, carry := true } : CPU).adc (fun _ => 100) 0 2 2).a = 45 ∧
    (({ CPU.new with a := 200, carry := true } : CPU).adc (fun _ => 100) 0 2 2).carry = true := by
  have h := c1_adc_spec { CPU.new with a := 200, carry := true } (fun _ => 100) 0 2 2
    (by norm_num)
  refine ⟨?_, ?_⟩
  · rw [h.1]; rfl
  · rw [h.2.1]; decide

/-! ## C2: JMP indirect page-wrap bug -/

/-- C2: executing JMP indirect (opcode 0x6C) with pointer word ptr sets PC to
the word whose low byte is read from ptr and whose high byte is read from
(ptr & 0xFF00) | ((ptr + 1) & 0x00FF); in particular when ptr = $xxFF the
high byte comes from $xx00. -/
theorem c2_jmp_indirect (c : CPU) (m : Mem) (ptr : Nat)
    (hp : ptr < 65536) (hptr : m.readWord (c.pc + 1) = ptr) :
    (c.executeJmpIndirect m).pc
        = m.readByte ((ptr &&& 0xFF00) ||| ((ptr + 1) &&& 0x00FF)) <<< 8
          ||| m.readByte ptr ∧
    (ptr &&& 0x00FF = 0xFF →
      (c.executeJmpIndirect m).pc
        = m.readByte (ptr &&& 0xFF00) <<< 8 ||| m.readByte ptr) := by
  have hkey : (ptr + 1) % 65536 &&& 0x00FF = (ptr + 1) &&& 0x00FF := by
    rw [nat_and_255_eq_mod, nat_and_255_eq_mod,
        Nat.mod_mod_of_dvd _ (by norm_num : (256 : Nat) ∣ 65536)]
  have hmain : (c.executeJmpIndirect m).pc
      = m.readByte ((ptr &&& 0xFF00) ||| ((ptr + 1) &&& 0x00FF)) <<< 8
        ||| m.readByte ptr := by
    show CPU.readWordWithPageWrapping m (m.readWord (c.pc + 1))
        = m.readByte ((ptr &&& 0xFF00) ||| ((ptr + 1) &&& 0x00FF)) <<< 8
          ||| m.readByte ptr
    rw [hptr]
    unfold CPU.readWordWithPageWrapping
    rw [hkey]
  refine ⟨hmain, fun hff => ?_⟩
  have hzero : (ptr + 1) &&& 0x00FF = 0 := by
    rw [nat_and_255_eq_mod]
    rw [nat_and_255_eq_mod] at hff
    omega
  rw [hmain, hzero, Nat.or_zero]

/-- C2 witness: the S4 scenario — JMP ($02FF) with $34 at $02FF and $12 at
$0200 lands at $1234. -/
theorem c2_witness :
    (({ CPU.new with pc := 0x400 } : CPU).executeJmpIndirect
        (fun a => if a = 0x401 then 0xFF else if a = 0x402 then 0x02 else
                  if a = 0x2FF then 0x34 else if a = 0x200 then 0x12 else 0)).pc
      = 0x1234 := by
  have h := c2_jmp_indirect { CPU.new with pc := 0x400 }
    (fun a => if a = 0x401 then 0xFF else if a = 0x402 then 0x02 else
              if a = 0x2FF then 0x34 else if a = 0x200 then 0x12 else 0)
    0x2FF (by norm_num) (by decide)
  have h2 := h.2 (by decide)
  rw [h2]; decide

/-! ## C3: conditional branches -/

theorem relativeConditionalBranch_false (c : CPU) (m : Mem) :
    c.relativeConditionalBranch m false = c := rfl

theorem relativeConditionalBranch_true_eq (c : CPU) (m : Mem) :
    c.relativeConditionalBranch m true =
      { c with pc := c.resolveAddressRelative m,
               total_cycles := c.total_cycles +
                 (if CPU.crossesPageBoundary c.pc (c.resolveAddressRelative m) then 2 else 1) } := by
  have h1 : c.relativeConditionalBranch m true =
      { (if CPU.crossesPageBoundary c.pc (c.resolveAddressRelative m) then
           ({ c with total_cycles := c.total_cycles + 2 } : CPU)
         else { c with total_cycles := c.total_cycles + 1 }) with
        pc := c.resolveAddressRelative m } := rfl
  rw [h1]
  by_cases hb : CPU.crossesPageBoundary c.pc (c.resolveAddressRelative m) = true
  · rw [if_pos hb, if_pos hb]
  · rw [if_neg hb, if_neg hb]

theorem resolveAddressRelative_shift (c : CPU) (m : Mem) :
    ({ c with pc := c.pc + 2 } : CPU).resolveAddressRelative m
      = (((c.pc + 2 : Int) + signedByteVal (m.readByte (c.pc + 1))) % 65536).toNat := by
  unfold CPU.resolveAddressRelative signedByteVal
  norm_num

theorem branchClaim_generic (f : CPU → Mem → Nat → Nat → CPU) (cond : CPU → Bool)
    (hf : ∀ c m, f c m 2 2 =
      (let c1 : CPU := { c with pc := c.pc + 2 }
       let c2 := c1.relativeConditionalBranch m (cond c)
       { c2 with total_cycles := c2.total_cycles + 2 })) :
    BranchClaim f cond := by
  intro c m _hpc
  refine ⟨fun hcond => ?_, fun hcond => ?_⟩
  · rw [hf, hcond]
    exact ⟨rfl, rfl⟩
  · rw [hf, hcond]
    dsimp only
    rw [relativeConditionalBranch_true_eq, resolveAddressRelative_shift]
    refine ⟨rfl, ?_⟩
    dsimp only
    omega

/-- C3: each of the eight conditional branches (dispatched as op(bus, 2, 2)),
when its condition is false, costs its base 2 cycles and advances PC by 2;
when true, adds the signed 8-bit operand to the post-increment PC and costs
one extra cycle, plus one more exactly when the target is on a different
256-byte page than the post-increment PC. -/
theorem c3_branches :
    BranchClaim CPU.beq (fun c => c.zero) ∧
    BranchClaim CPU.bne (fun c => !c.zero) ∧
    BranchClaim CPU.bcc (fun c => !c.carry) ∧
    BranchClaim CPU.bcs (fun c => c.carry) ∧
    BranchClaim CPU.bpl (fun c => !c.negative) ∧
    BranchClaim CPU.bmi (fun c => c.negative) ∧
    BranchClaim CPU.bvc (fun c => !c.overflow) ∧
    BranchClaim CPU.bvs (fun c => c.overflow) :=
  ⟨branchClaim_generic _ _ (fun _ _ => rfl), branchClaim_generic _ _ (fun _ _ => rfl),
   branchClaim_generic _ _ (fun _ _ => rfl), branchClaim_generic _ _ (fun _ _ => rfl),
   branchClaim_generic _ _ (fun _ _ => rfl), branchClaim_generic _ _ (fun _ _ => rfl),
   branchClaim_generic _ _ (fun _ _ => rfl), branchClaim_generic _ _ (fun _ _ => rfl)⟩

/-- C3 witness: a taken BEQ at $0100 with offset $10 lands at $0112 for 3
cycles; a not-taken BNE there costs 2 cycles and advances PC by 2. -/
theorem c3_witness :
    (CPU.beq { CPU.new with zero := true, pc := 0x100 } (fun _ => 0x10) 2 2).pc = 0x112 ∧
    (CPU.beq { CPU.new with zero := true, pc := 0x100 } (fun _ => 0x10) 2 2).total_cycles = 3 ∧
    (CPU.bne { CPU.new with zero := true, pc := 0x100 } (fun _ => 0x10) 2 2).pc = 0x102 ∧
    (CPU.bne { CPU.new with zero := true, pc := 0x100 } (fun _ => 0x10) 2 2).total_cycles = 2 := by
  have hq := c3_branches.1 { CPU.new with zero := true, pc := 0x100 } (fun _ => 0x10)
    (by norm_num)
  have hn := c3_branches.2.1 { CPU.new with zero := true, pc := 0x100 } (fun _ => 0x10)
    (by norm_num)
  have hqt := hq.2 rfl
  have hnf := hn.1 rfl
  refine ⟨?_, ?_, ?_, ?_⟩
  · rw [hqt.1]; decide
  · rw [hqt.2]; decide
  · rw [hnf.1]
  · rw [hnf.2]; rfl

end Mos6502

namespace Nes

/-! ## C10: $4020-$5FFF reaches the NROM panic arm -/

/-- C10: with an NROM cartridge inserted, every CPU-bus access to an address
in $4020–$5FFF is routed to the cartridge and reaches NROM's catch-all match
arm, which panics (modelled as `none`), rather than behaving as open bus. -/
theorem c10_unmapped_cartridge_panic :
    ∀ (st : NesState) (address value : Nat),
      0x4020 ≤ address → address ≤ 0x5FFF →
      mapAddress address = MappedAddress.cartridge address ∧
      st.cart.cpuRead address = none ∧
      st.cart.cpuWrite address value = none ∧
      CpuBus.readByte st address = none ∧
      CpuBus.writeByte st address value = none := by
  intro st address value h1 h2
  have hmap : mapAddress address = MappedAddress.cartridge address := by
    unfold mapAddress
    rw [if_neg (by omega), if_neg (by omega), if_neg (by omega), if_neg (by omega),
        if_neg (by omega), if_pos h1]
  have hr : st.cart.cpuRead address = none := by
    unfold NROM.cpuRead
    rw [if_neg (by omega), if_neg (by omega)]
  have hw : st.cart.cpuWrite address value = none := by
    unfold NROM.cpuWrite
    rw [if_neg (by omega), if_neg (by omega)]
  refine ⟨hmap, hr, hw, ?_, ?_⟩
  · unfold CpuBus.readByte
    rw [hmap]
    simp [hr]
  · unfold CpuBus.writeByte
    rw [hmap]
    simp [hw]

/-- C10 witness: a read of $4020 and a write to $4020 on the trivial NROM bus
both hit the panic arm. -/
theorem c10_witness :
    CpuBus.readByte nesZero 0x4020 = none ∧ CpuBus.writeByte nesZero 0x4020 0 = none := by
  have h := c10_unmapped_cartridge_panic nesZero 0x4020 0 (by norm_num) (by norm_num)
  exact ⟨h.2.2.2.1, h.2.2.2.2⟩

/-! ## C4: OAM DMA ignores OAMADDR -/

/-- C4 counterexample: with OAMADDR = 1 and RAM holding 1 at address 1 and 0
at address 0, a DMA from page 0 leaves OAM[(OAMADDR + 0) mod 256] = 1 while
the CPU-bus byte at (0<<8)|0 is 0 — the claimed byte identity fails at i = 0
because PPU::oam_dma copies from OAM index 0, ignoring OAMADDR. -/
theorem c4_counterexample :
    ¬ ((CpuBus.writeByte c4State 0x4014 0).map
          (fun st => st.ppu.oam ((c4State.ppu.oam_addr.get + 0) % 256)) =
        (CpuBus.readByte c4State ((0 <<< 8) ||| 0)).map (fun r => r.1)) := by
  have h1 : (CpuBus.writeByte c4State 0x4014 0).map
      (fun st => st.ppu.oam ((c4State.ppu.oam_addr.get + 0) % 256)) = some 1 := rfl
  have h2 : (CpuBus.readByte c4State ((0 <<< 8) ||| 0)).map (fun r => r.1) = some 0 := rfl
  rw [h1, h2]
  simp

/-- C4 (amended): a CPU-bus write of P to $4014 reads the 256 bytes of page P
through the bus and copies them into OAM starting at index 0 — ignoring
OAMADDR: afterwards OAM[i] equals the i-th byte read from the page. -/
theorem c4_amended_oam_dma :
    ∀ (st : NesState) (page : Nat) (pageData : List Nat) (st₁ : NesState),
      readPage st page = some (pageData, st₁) →
      CpuBus.writeByte st 0x4014 page = some { st₁ with ppu := st₁.ppu.oamDma pageData } ∧
      ∀ i, (st₁.ppu.oamDma pageData).oam i = pageData.getD i 0 := by
  intro st page pageData st₁ h
  have hmap : mapAddress 0x4014 = MappedAddress.oamDma := rfl
  constructor
  · unfold CpuBus.writeByte
    rw [hmap]
    simp only [h, Option.bind_eq_bind, Option.some_bind]
  · intro i
    rfl

/-- C4 witness: a DMA from page 0 over the all-zero bus leaves OAM[5] = 0. -/
theorem c4_witness :
    (CpuBus.writeByte nesZero 0x4014 0).map (fun st => st.ppu.oam 5) = some 0 := by
  have h := c4_amended_oam_dma nesZero 0 (List.replicate 256 0) nesZero rfl
  rw [h.1, Option.map_some']
  rw [h.2 5]
  rfl

/-! ## C6: $2005/$2006 do not share a write latch -/

/-- C6 counterexample: from a fresh PPU, a first write to $2006 (value $12)
followed by a write to $2005 (value $34): under the claimed shared toggle the
$2005 write would land in the second (y) position, but the code lands it in
offset_x — PpuScroll keeps its own untouched first_write toggle. -/
theorem c6_counterexample :
    ((PPU.new.writePpuAddr 0x12).writePpuScroll 0x34).ppu_scroll.offset_y ≠ 0x34 ∧
    ((PPU.new.writePpuAddr 0x12).writePpuScroll 0x34).ppu_scroll.offset_x = 0x34 ∧
    ((PPU.new.writePpuAddr 0x12).writePpuScroll 0x34).ppu_scroll.offset_y = 0 := by
  refine ⟨?_, rfl, rfl⟩
  decide

/-- C6 (amended): $2005 and $2006 keep separate write state.  Writes to one
never move the other's landing position: $2005 has its own x-then-y toggle,
$2006 is a hi-then-lo shift register, and reading $2002 resets both ($2005's
toggle to first-write with cleared offsets, $2006's address to 0). -/
theorem c6_amended_latches :
    (∀ (p : PPU) (v : Nat), (p.writePpuAddr v).ppu_scroll = p.ppu_scroll) ∧
    (∀ (p : PPU) (v : Nat), (p.writePpuScroll v).ppu_addr = p.ppu_addr) ∧
    (∀ (p : PPU) (v : Nat), p.ppu_scroll.first_write = true →
        (p.writePpuScroll v).ppu_scroll.offset_x = v % 256 ∧
        (p.writePpuScroll v).ppu_scroll.offset_y = p.ppu_scroll.offset_y ∧
        (p.writePpuScroll v).ppu_scroll.first_write = false) ∧
    (∀ (p : PPU) (v : Nat), p.ppu_scroll.first_write = false →
        (p.writePpuScroll v).ppu_scroll.offset_y = v % 256 ∧
        (p.writePpuScroll v).ppu_scroll.offset_x = p.ppu_scroll.offset_x ∧
        (p.writePpuScroll v).ppu_scroll.first_write = true) ∧
    (∀ (p : PPU) (hi lo : Nat), hi < 256 → lo < 256 →
        (((p.readPpuStatus).2.writePpuAddr hi).writePpuAddr lo).ppu_addr.get
          = ((hi <<< 8) ||| lo) &&& 0x3FFF) ∧
    (∀ (p : PPU), (p.readPpuStatus).2.ppu_scroll.first_write = true ∧
        (p.readPpuStatus).2.ppu_scroll.offset_x = 0 ∧
        (p.readPpuStatus).2.ppu_scroll.offset_y = 0 ∧
        (p.readPpuStatus).2.ppu_addr.get = 0) := by
  refine ⟨fun p v => rfl, fun p v => rfl, ?_, ?_, ?_, fun p => ⟨rfl, rfl, rfl, rfl⟩⟩
  · intro p v h
    unfold PPU.writePpuScroll PpuScroll.write
    rw [h]
    exact ⟨rfl, rfl, rfl⟩
  · intro p v h
    unfold PPU.writePpuScroll PpuScroll.write
    rw [h]
    exact ⟨rfl, rfl, rfl⟩
  · intro p hi lo hhi hlo
    show ((((((0 : Nat) <<< 8) % 65536 ||| hi % 256) &&& 0x3FFF) <<< 8) % 65536
            ||| lo % 256) &&& 0x3FFF
        = ((hi <<< 8) ||| lo) &&& 0x3FFF
    have e1 : (((0 : Nat) <<< 8) % 65536 ||| hi % 256) &&& 0x3FFF = hi := by
      rw [Nat.zero_shiftLeft, Nat.zero_mod, Nat.zero_or, nat_and_16383_eq_mod]
      omega
    rw [e1]
    have e2 : (hi <<< 8) % 65536 = hi <<< 8 := by
      rw [Nat.shiftLeft_eq]
      exact Nat.mod_eq_of_lt (by norm_num; omega)
    rw [e2, Nat.mod_eq_of_lt hlo]

/-- C6 witness: after a $2002 read resets the address register, writing $21
then $08 to $2006 latches address $2108. -/
theorem c6_witness :
    (((PPU.new.readPpuStatus).2.writePpuAddr 0x21).writePpuAddr 0x08).ppu_addr.get
      = 0x2108 := by
  have h := c6_amended_latches.2.2.2.2.1 PPU.new 0x21 0x08 (by norm_num) (by norm_num)
  rw [h]
  decide

end Nes

namespace Nes

/-! ## C5: controller reads after a strobe -/

theorem readN_spec (p : ControllerPort) (h : p.index < 256) (n : Nat) :
    (p.readN n).read_buffer = p.read_buffer ∧
    (p.readN n).overrun_default = p.overrun_default ∧
    (p.readN n).index = (p.index + n) % 256 := by
  induction n generalizing p with
  | zero =>
      exact ⟨rfl, rfl, by simp [ControllerPort.readN]; omega⟩
  | succ n ih =>
      have hstep := ih (p.read).2 (Nat.mod_lt _ (by norm_num))
      refine ⟨hstep.1, hstep.2.1, ?_⟩
      rw [show (p.readN (n + 1)) = ((p.read).2.readN n) from rfl, hstep.2.2]
      show ((p.index + 1) % 256 + n) % 256 = (p.index + (n + 1)) % 256
      omega

/-- C5 (amended): after latching a StandardController snapshot via a strobe,
reads 1..8 return the button bits in order A, B, Select, Start, Up, Down,
Left, Right, and reads 9 through 256 return 1.  (The read cursor is an 8-bit
counter, so it wraps after 256 reads and the sequence repeats.) -/
theorem c5_amended_controller (s : StandardController) (p : ControllerPort) :
    ((latchSnapshot p s).readN 0).currentByte = (if s.a then 1 else 0) ∧
    ((latchSnapshot p s).readN 1).currentByte = (if s.b then 1 else 0) ∧
    ((latchSnapshot p s).readN 2).currentByte = (if s.select then 1 else 0) ∧
    ((latchSnapshot p s).readN 3).currentByte = (if s.start then 1 else 0) ∧
    ((latchSnapshot p s).readN 4).currentByte = (if s.up then 1 else 0) ∧
    ((latchSnapshot p s).readN 5).currentByte = (if s.down then 1 else 0) ∧
    ((latchSnapshot p s).readN 6).currentByte = (if s.left then 1 else 0) ∧
    ((latchSnapshot p s).readN 7).currentByte = (if s.right then 1 else 0) ∧
    (∀ k, 8 ≤ k → k ≤ 255 → ((latchSnapshot p s).readN k).currentByte = 1) := by
  have hq : latchSnapshot p s = ⟨s.readBuffer, 0, 1, none⟩ := rfl
  rw [hq]
  refine ⟨rfl, rfl, rfl, rfl, rfl, rfl, rfl, rfl, ?_⟩
  intro k h8 h255
  have hr := readN_spec ⟨s.readBuffer, 0, 1, none⟩ (by norm_num) k
  unfold ControllerPort.currentByte
  rw [hr.1, hr.2.1, hr.2.2]
  have hk : (0 + k) % 256 = k := by omega
  rw [hk]
  have hlen : s.readBuffer.length = 8 := rfl
  rw [List.get?_eq_none.mpr (by rw [hlen]; omega)]
  rfl

/-- C5 counterexample: with no button pressed, the 257th read after a strobe
returns 0, not 1 — the u8 read cursor has wrapped back to the A bit. -/
theorem c5_counterexample :
    ((latchSnapshot ControllerPort.default scAllFalse).readN 256).currentByte = 0 ∧
    ((latchSnapshot ControllerPort.default scAllFalse).readN 256).currentByte ≠ 1 := by
  exact ⟨rfl, by decide⟩

/-- C5 witness: with only Start pressed, the 4th read returns 1 and the 10th
read returns 1. -/
theorem c5_witness :
    ((latchSnapshot ControllerPort.default scStartOnly).readN 3).currentByte = 1 ∧
    ((latchSnapshot ControllerPort.default scStartOnly).readN 9).currentByte = 1 := by
  have h := c5_amended_controller scStartOnly ControllerPort.default
  exact ⟨by simpa using h.2.2.2.1, h.2.2.2.2.2.2.2.2 9 (by norm_num) (by norm_num)⟩

/-! ## C8: ExecutionState snapshots mutate the bus -/

/-- C8 (code bug): taking a snapshot via CPU::current_state /
ExecutionState::new with PC = $2002 fetches the instruction bytes through the
side-effecting Bus16::read_byte: it observes PPUSTATUS = $80, clears the
VBlank flag (status becomes 0) and bumps OAMADDR (the $2004 read at PC+2
auto-increments it outside VBlank) — the bus is NOT left unchanged. -/
theorem c8_snapshot_mutates :
    c8State.ppu.ppu_status.bits = 0x80 ∧
    (currentState c8Cpu c8State).map (fun r => r.2.ppu.ppu_status.bits) = some 0 ∧
    c8State.ppu.oam_addr.get = 0 ∧
    (currentState c8Cpu c8State).map (fun r => r.2.ppu.oam_addr.get) = some 1 ∧
    (currentState c8Cpu c8State).map (fun r => r.1.opcode) = some 0x80 := by
  exact ⟨rfl, rfl, rfl, rfl, rfl⟩

/-! ## C7: RomFile::load never panics and tags its errors -/

theorem slice04 (bytes : List Nat) (h : 16 ≤ bytes.length) :
    sliceRange bytes 0 4 = some (bytes.take 4) := by
  unfold sliceRange
  rw [if_pos ⟨by omega, by omega⟩, List.drop_zero]

theorem slice016 (bytes : List Nat) (h : 16 ≤ bytes.length) :
    sliceRange bytes 0 16 = some (bytes.take 16) := by
  unfold sliceRange
  rw [if_pos ⟨by omega, by omega⟩, List.drop_zero]

theorem load_unfold (bytes : List Nat) (h : 16 ≤ bytes.length) :
    RomFile.load bytes =
      (if bytes.take 4 ≠ [0x4E, 0x45, 0x53, 0x1A] then
        some (Except.error RomLoadError.unsupportedFormat)
       else if isInes2Header (bytes.take 16) then
        some (Except.error RomLoadError.unsupportedFormat)
       else if mapperNumber (bytes.take 16) ≠ 0 then
        some (Except.error RomLoadError.unsupportedMapper)
       else if consoleType (bytes.take 16) ≠ ConsoleType.nes then
        some (Except.error RomLoadError.unsupportedConsole)
       else some (loadBanks bytes (bytes.take 16))) := by
  unfold RomFile.load
  rw [if_neg (by omega), slice04 bytes h, slice016 bytes h]

theorem loadBanks_short (bytes header : List Nat)
    (h : bytes.length <
        16 + (if hasTrainer header then 512 else 0) + prgRomSize header + chrRomSize header) :
    loadBanks bytes header = Except.error RomLoadError.malformedRomFile := by
  unfold loadBanks consumeBytes
  by_cases ht : hasTrainer header = true
  · rw [if_pos ht] at h ⊢
    by_cases h1 : 16 + 512 ≤ bytes.length
    · rw [if_pos h1]
      dsimp only [Except.map]
      by_cases h2 : 16 + 512 + prgRomSize header ≤ bytes.length
      · rw [if_pos h2]
        dsimp only
        rw [if_neg (by omega)]
      · rw [if_neg h2]
    · rw [if_neg h1]
      dsimp only [Except.map]
  · rw [if_neg ht] at h ⊢
    dsimp only
    by_cases h2 : 16 + prgRomSize header ≤ bytes.length
    · rw [if_pos h2]
      dsimp only
      rw [if_neg (by omega)]
    · rw [if_neg h2]

/-- C7: RomFile::load never panics (always returns a value), returning
MalformedRomFile for inputs shorter than 16 bytes, UnsupportedFormat for a
missing "NES\x1A" magic or a NES 2.0 header, UnsupportedMapper for a non-zero
mapper, UnsupportedConsole for a non-NES console type, and MalformedRomFile
for inputs shorter than the header plus the declared trainer, PRG-ROM and
CHR-ROM sizes. -/
theorem c7_rom_load :
    (∀ bytes : List Nat, (RomFile.load bytes).isSome = true) ∧
    (∀ bytes : List Nat, bytes.length < 16 →
        RomFile.load bytes = some (Except.error RomLoadError.malformedRomFile)) ∧
    (∀ bytes : List Nat, 16 ≤ bytes.length →
        bytes.take 4 ≠ [0x4E, 0x45, 0x53, 0x1A] →
        RomFile.load bytes = some (Except.error RomLoadError.unsupportedFormat)) ∧
    (∀ bytes : List Nat, 16 ≤ bytes.length →
        bytes.take 4 = [0x4E, 0x45, 0x53, 0x1A] →
        isInes2Header (bytes.take 16) = true →
        RomFile.load bytes = some (Except.error RomLoadError.unsupportedFormat)) ∧
    (∀ bytes : List Nat, 16 ≤ bytes.length →
        bytes.take 4 = [0x4E, 0x45, 0x53, 0x1A] →
        isInes2Header (bytes.take 16) = false →
        mapperNumber (bytes.take 16) ≠ 0 →
        RomFile.load bytes = some (Except.error RomLoadError.unsupportedMapper)) ∧
    (∀ bytes : List Nat, 16 ≤ bytes.length →
        bytes.take 4 = [0x4E, 0x45, 0x53, 0x1A] →
        isInes2Header (bytes.take 16) = false →
        mapperNumber (bytes.take 16) = 0 →
        consoleType (bytes.take 16) ≠ ConsoleType.nes →
        RomFile.load bytes = some (Except.error RomLoadError.unsupportedConsole)) ∧
    (∀ bytes : List Nat, 16 ≤ bytes.length →
        bytes.take 4 = [0x4E, 0x45, 0x53, 0x1A] →
        isInes2Header (bytes.take 16) = false →
        mapperNumber (bytes.take 16) = 0 →
        consoleType (bytes.take 16) = ConsoleType.nes →
        bytes.length < 16 + (if hasTrainer (bytes.take 16) then 512 else 0)
            + prgRomSize (bytes.take 16) + chrRomSize (bytes.take 16) →
        RomFile.load bytes = some (Except.error RomLoadError.malformedRomFile)) := by
  refine ⟨?_, ?_, ?_, ?_, ?_, ?_, ?_⟩
  · intro bytes
    by_cases h16 : bytes.length < 16
    · unfold RomFile.load
      rw [if_pos h16]
      rfl
    · rw [load_unfold bytes (by omega)]
      split_ifs <;> rfl
  · intro bytes h16
    unfold RomFile.load
    rw [if_pos h16]
  · intro bytes h16 hmag
    rw [load_unfold bytes h16, if_pos hmag]
  · intro bytes h16 hmag hines
    rw [load_unfold bytes h16, if_neg (by simp [hmag]), if_pos hines]
  · intro bytes h16 hmag hines hmap
    rw [load_unfold bytes h16, if_neg (by simp [hmag]), if_neg (by simp [hines]),
        if_pos hmap]
  · intro bytes h16 hmag hines hmap hcons
    rw [load_unfold bytes h16, if_neg (by simp [hmag]), if_neg (by simp [hines]),
        if_neg (by simp [hmap]), if_pos hcons]
  · intro bytes h16 hmag hines hmap hcons hshort
    rw [load_unfold bytes h16, if_neg (by simp [hmag]), if_neg (by simp [hines]),
        if_neg (by simp [hmap]), if_neg (by simp [hcons])]
    exact congrArg some (loadBanks_short bytes (bytes.take 16) hshort)

/-- C7 witness: the empty input loads to MalformedRomFile; a 16-byte input
(bad magic) still returns a value (no panic). -/
theorem c7_witness :
    RomFile.load [] = some (Except.error RomLoadError.malformedRomFile) ∧
    (RomFile.load (List.replicate 16 0)).isSome = true := by
  exact ⟨c7_rom_load.2.1 [] (by simp), c7_rom_load.1 (List.replicate 16 0)⟩

end Nes

namespace Nes

/-! ## C9: PPU dot counters stay in range; frame writes stay in bounds -/

theorem fetch_preserves_xy (p : PPU) (cartRead : Nat → Option Nat) (p' : PPU)
    (h : p.fetchBackgroundSlice cartRead = some p') :
    p'.x = p.x ∧ p'.y = p.y := by
  unfold PPU.fetchBackgroundSlice at h
  simp only [Option.bind_eq_bind, Option.bind_eq_some, Option.some.injEq] at h
  obtain ⟨a, _, b, _, c, _, d, _, hp⟩ := h
  rw [← hp]
  exact ⟨rfl, rfl⟩

theorem renderOps_mem (p₂ : PPU) (pal : NtscPalette) (op : FrameOp)
    (hop : op ∈ (if p₂.ppu_mask.renderBackground then
          [FrameOp.write p₂.x p₂.y
            (pal (paletteRead p₂.palette_ram
              (p₂.current_background_slice.color (p₂.x % 8))))]
        else []) ++
        (if p₂.ppu_mask.renderSprites then
          match firstSpriteContaining p₂.oam p₂.x p₂.y p₂.ppu_ctrl.spriteSize with
          | some _ => [FrameOp.write p₂.x p₂.y (0, 0, 255)]
          | none => []
        else [])) :
    ∃ rgb, op = FrameOp.write p₂.x p₂.y rgb := by
  rw [List.mem_append] at hop
  rcases hop with hop | hop
  · by_cases hb : p₂.ppu_mask.renderBackground = true
    · rw [hb] at hop
      simp at hop
      exact ⟨_, hop⟩
    · rw [Bool.not_eq_true] at hb
      rw [hb] at hop
      simp at hop
  · by_cases hb : p₂.ppu_mask.renderSprites = true
    · rw [hb] at hop
      simp at hop
      rcases hfs : firstSpriteContaining p₂.oam p₂.x p₂.y p₂.ppu_ctrl.spriteSize with _ | i
      · rw [hfs] at hop
        simp at hop
      · rw [hfs] at hop
        simp at hop
        exact ⟨_, hop⟩
    · rw [Bool.not_eq_true] at hb
      rw [hb] at hop
      simp at hop

theorem renderDot_spec (p : PPU) (cartRead : Nat → Option Nat) (pal : NtscPalette)
    (p' : PPU) (ops : List FrameOp)
    (h : p.renderDot cartRead pal = some (p', ops)) :
    p'.x = p.x ∧ p'.y = p.y ∧
    (∀ op ∈ ops, ∃ rgb, op = FrameOp.write p.x p.y rgb ∧ p.x < 256 ∧ p.y < 240) := by
  unfold PPU.renderDot at h
  by_cases hg : p.x < 256 ∧ p.y < 240
  · rw [if_pos hg] at h
    by_cases h8 : p.x % 8 = 0
    · rw [if_pos h8] at h
      rcases hf : p.fetchBackgroundSlice cartRead with _ | p₂
      · rw [hf] at h
        simp at h
      · rw [hf] at h
        simp only [Option.bind_eq_bind, Option.some_bind, Option.some.injEq,
          Prod.mk.injEq] at h
        have hxy := fetch_preserves_xy p cartRead p₂ hf
        refine ⟨by rw [← h.1]; exact hxy.1, by rw [← h.1]; exact hxy.2, ?_⟩
        intro op hop
        rw [← h.2] at hop
        obtain ⟨rgb, hw⟩ := renderOps_mem p₂ pal op hop
        exact ⟨rgb, by rw [hw, hxy.1, hxy.2], hg.1, hg.2⟩
    · rw [if_neg h8] at h
      simp only [Option.bind_eq_bind, Option.some_bind, Option.some.injEq,
        Prod.mk.injEq] at h
      refine ⟨by rw [← h.1], by rw [← h.1], ?_⟩
      intro op hop
      rw [← h.2] at hop
      obtain ⟨rgb, hw⟩ := renderOps_mem p pal op hop
      exact ⟨rgb, hw, hg.1, hg.2⟩
  · rw [if_neg hg] at h
    simp only [Option.some.injEq, Prod.mk.injEq] at h
    refine ⟨by rw [← h.1], by rw [← h.1], ?_⟩
    intro op hop
    rw [← h.2] at hop
    simp at hop

theorem advanceCounters_inv (p : PPU) (hx : p.x ≤ 340) (hy : p.y ≤ 261) :
    (p.advanceCounters).x ≤ 340 ∧ (p.advanceCounters).y ≤ 261 := by
  unfold PPU.advanceCounters
  dsimp only
  by_cases h1 : 341 ≤ p.x + 1
  · rw [if_pos h1]
    by_cases h2 : p.y + 1 = 241
    · rw [if_pos h2]
      by_cases h3 : p.ppu_ctrl.nmiEnabled = true
      · rw [if_pos h3]
        dsimp only
        rw [if_neg (by omega)]
        exact ⟨by dsimp only; omega, by dsimp only; omega⟩
      · rw [if_neg h3]
        dsimp only
        rw [if_neg (by omega)]
        exact ⟨by dsimp only; omega, by dsimp only; omega⟩
    · rw [if_neg h2]
      dsimp only
      by_cases h4 : 262 ≤ p.y + 1
      · rw [if_pos h4]
        exact ⟨by dsimp only; omega, by dsimp only; omega⟩
      · rw [if_neg h4]
        exact ⟨by dsimp only; omega, by dsimp only; omega⟩
  · rw [if_neg h1]
    refine ⟨?_, hy⟩
    show p.x + 1 ≤ 340
    omega

theorem oamReset_xy (p : PPU) (c : Prop) [Decidable c] :
    ((if c then { p with oam_addr := p.oam_addr.resetLatch } else p) : PPU).x = p.x ∧
    ((if c then { p with oam_addr := p.oam_addr.resetLatch } else p) : PPU).y = p.y := by
  split <;> exact ⟨rfl, rfl⟩

theorem cycle_spec (p : PPU) (cartRead : Nat → Option Nat) (pal : NtscPalette)
    (p' : PPU) (ops : List FrameOp)
    (h : p.cycle cartRead pal = some (p', ops)) (hx : p.x ≤ 340) (hy : p.y ≤ 261) :
    p'.x ≤ 340 ∧ p'.y ≤ 261 ∧ opsInBounds ops := by
  unfold PPU.cycle at h
  simp only [Option.bind_eq_bind, Option.bind_eq_some, Option.some.injEq,
    Prod.mk.injEq] at h
  obtain ⟨⟨p₂, renderOps⟩, hrd, hinj⟩ := h
  have hreset := oamReset_xy p (257 ≤ p.x ∧ p.x ≤ 320)
  have hrspec := renderDot_spec _ cartRead pal p₂ renderOps hrd
  have hp2x : p₂.x = p.x := by rw [hrspec.1, hreset.1]
  have hp2y : p₂.y = p.y := by rw [hrspec.2.1, hreset.2]
  have hadv := advanceCounters_inv p₂ (by omega) (by omega)
  have hp' : p' = p₂.advanceCounters := hinj.1.symm
  refine ⟨by rw [hp']; exact hadv.1, by rw [hp']; exact hadv.2, ?_⟩
  intro op hop
  rw [← hinj.2, List.mem_append] at hop
  rcases hop with hop | hop
  · rcases hc : (decide (p.x = 0 ∧ p.y = 0)) with _ | _
    · rw [show (if p.x = 0 ∧ p.y = 0 then [FrameOp.clearWith (255, 0, 255)] else
          ([] : List FrameOp)) = [] from by simp_all] at hop
      simp at hop
    · rw [show (if p.x = 0 ∧ p.y = 0 then [FrameOp.clearWith (255, 0, 255)] else
          ([] : List FrameOp)) = [FrameOp.clearWith (255, 0, 255)] from by simp_all] at hop
      rw [List.mem_singleton] at hop
      rw [hop]
      trivial
  · obtain ⟨rgb, hw, hxb, hyb⟩ := hrspec.2.2 op hop
    rw [hw]
    refine ⟨hxb, hyb, ?_⟩
    unfold frameBaseIdx frameLength
    omega

theorem tick_inv (cartRead : Nat → Option Nat) (pal : NtscPalette) (n : Nat) :
    ∀ (p0 p : PPU) (ops : List FrameOp), p0.x ≤ 340 → p0.y ≤ 261 →
      p0.tick cartRead pal n = some (p, ops) →
      p.x ≤ 340 ∧ p.y ≤ 261 ∧ opsInBounds ops := by
  induction n with
  | zero =>
      intro p0 p ops hx hy h
      unfold PPU.tick at h
      simp only [Option.some.injEq, Prod.mk.injEq] at h
      rw [← h.1, ← h.2]
      exact ⟨hx, hy, by intro op hop; simp at hop⟩
  | succ n ih =>
      intro p0 p ops hx hy h
      unfold PPU.tick at h
      simp only [Option.bind_eq_bind, Option.bind_eq_some, Option.some.injEq,
        Prod.mk.injEq] at h
      obtain ⟨⟨p₁, ops₁⟩, hc, ⟨p₂, ops₂⟩, ht, hinj⟩ := h
      have hcs := cycle_spec p0 cartRead pal p₁ ops₁ hc hx hy
      have hts := ih p₁ p₂ ops₂ hcs.1 hcs.2.1 ht
      rw [← hinj.1, ← hinj.2]
      refine ⟨hts.1, hts.2.1, ?_⟩
      intro op hop
      rw [List.mem_append] at hop
      rcases hop with hop | hop
      · exact hcs.2.2 op hop
      · exact hts.2.2 op hop

/-- C9: starting from a freshly constructed PPU, after any number of
cycle/tick dots the dot counters satisfy x ≤ 340 and y ≤ 261, and every
Frame::write the PPU performs is at x < 256, y < 240, so the Frame::write
index arithmetic (y*256 + x)*3 + 2 stays inside the 256*240*3-byte buffer. -/
theorem c9_ppu_frame_bounds :
    ∀ (cartRead : Nat → Option Nat) (pal : NtscPalette) (n : Nat) (p : PPU)
      (ops : List FrameOp),
      PPU.new.tick cartRead pal n = some (p, ops) →
      p.x ≤ 340 ∧ p.y ≤ 261 ∧ opsInBounds ops := by
  intro cartRead pal n p ops h
  exact tick_inv cartRead pal n PPU.new p ops (by norm_num [PPU.new]) (by norm_num [PPU.new]) h

/-- C9 witness: two dots on a fresh PPU over a trivial cartridge succeed and
satisfy the bounds. -/
theorem c9_witness :
    (PPU.new.tick (fun _ => some 0) (fun _ => (0, 0, 0)) 2).elim False
      (fun r => r.1.x ≤ 340 ∧ r.1.y ≤ 261 ∧ opsInBounds r.2) := by
  have hsome : (PPU.new.tick (fun _ => some 0) (fun _ => (0, 0, 0)) 2).isSome = true := rfl
  obtain ⟨r, hr⟩ := Option.isSome_iff_exists.mp hsome
  rw [hr]
  exact c9_ppu_frame_bounds (fun _ => some 0) (fun _ => (0, 0, 0)) 2 r.1 r.2 (by rw [hr])

end Nes
